import Mathlib

/-!
Verification development for the open-vending-bench simulation engine.

Shallow embedding of the Python sources: `vending_machine.py`, `storage.py`,
`main_simulation.py`, `agent.py`, `email_system.py`, `weather.py`,
`economic_environment.py`.  Money is modeled exactly as rationals, machine
integers as `Int`/`Nat`, Python dicts as function maps, and the external
model / weather randomness as explicit oracle parameters.
-/

set_option maxHeartbeats 1000000
set_option maxRecDepth 4000

namespace VendingBench

/-! ## Items (vending_machine.py, class Item) -/

/-- `Item` from src/vending_machine.py: name, size ('small' or 'large'),
selling price and supplier cost. -/
structure Item where
  name : String
  size : String
  price : ℚ
  cost : ℚ
  deriving DecidableEq

/-! ## StorageSystem (src/storage.py) -/

/-- One record of `StorageSystem.items`:
`{"item": Item, "quantity": int, "avg_unit_cost": float}`. -/
structure StorageRec where
  item : Item
  quantity : ℤ
  avgUnitCost : ℚ
  deriving DecidableEq

/-- The `StorageSystem.items` dict, as a function map keyed by product name. -/
def Items := String → Option StorageRec

def emptyItems : Items := fun _ => none

def updateItems (m : Items) (k : String) (v : Option StorageRec) : Items :=
  fun k' => if k' = k then v else m k'

/-- The weighted-average update of `StorageSystem.add_items`
(src/storage.py lines 43-47): recomputed only when the new total is positive,
otherwise the old average is kept. -/
def storageNewAvg (r : StorageRec) (quantity : ℤ) (unitCost : ℚ) : ℚ :=
  if 0 < r.quantity + quantity then
    (r.avgUnitCost * (r.quantity : ℚ) + unitCost * (quantity : ℚ))
      / ((r.quantity + quantity : ℤ) : ℚ)
  else r.avgUnitCost

/-- The record freshly created by `add_items` when the name is unknown
(src/storage.py lines 32-39): quantity 0, average cost 0, Item cost seeded
with the batch's unit cost. -/
def defaultRec (name size : String) (unitCost price : ℚ) : StorageRec :=
  { item := { name := name, size := size, price := price, cost := unitCost }
    quantity := 0
    avgUnitCost := 0 }

/-- The record written back by `add_items`: weighted average recomputed,
quantity increased, average mirrored into `item.cost`. -/
def addRecord (m : Items) (name size : String) (quantity : ℤ) (unitCost price : ℚ) :
    StorageRec :=
  let record := (m name).getD (defaultRec name size unitCost price)
  let newAvg := storageNewAvg record quantity unitCost
  { item := { record.item with cost := newAvg }
    quantity := record.quantity + quantity
    avgUnitCost := newAvg }

/-- `StorageSystem.add_items` (src/storage.py lines 18-54): on a fresh name it
creates the record at quantity 0 and average cost 0, recomputes the weighted
average, updates the quantity and mirrors the average into `item.cost`;
returns the batch cost `unit_cost * quantity`. -/
def add_items (m : Items) (name size : String) (quantity : ℤ) (unitCost : ℚ)
    (price : ℚ := 0) : Items × ℚ :=
  (updateItems m name (some (addRecord m name size quantity unitCost price)),
    unitCost * (quantity : ℚ))

/-- `StorageSystem.remove_items` (src/storage.py lines 56-80): fails without
mutation when the name is unknown or the stock is insufficient, otherwise
decrements and deletes the record when the quantity reaches zero. -/
def remove_items (m : Items) (name : String) (quantity : ℤ) : Items × Bool :=
  match m name with
  | none => (m, false)
  | some r =>
    if r.quantity < quantity then (m, false)
    else
      let q' := r.quantity - quantity
      if q' = 0 then (updateItems m name none, true)
      else (updateItems m name (some { r with quantity := q' }), true)

/-- One `add_items`/`remove_items` call on a fixed product name. -/
inductive StoreOp where
  | add (size : String) (qty : ℤ) (unitCost : ℚ)
  | remove (qty : ℤ)
  deriving DecidableEq

def StoreOp.qty : StoreOp → ℤ
  | .add _ q _ => q
  | .remove q => q

def applyStoreOp (name : String) (m : Items) : StoreOp → Items
  | .add size q c => (add_items m name size q c).1
  | .remove q => (remove_items m name q).1

/-- Run a sequence of storage calls on one product, starting from empty storage. -/
def runStore (name : String) (ops : List StoreOp) : Items :=
  ops.foldl (applyStoreOp name) emptyItems

/-- Total quantity over all `add_items` calls of the sequence. -/
def addsTotalQty : List StoreOp → ℤ
  | [] => 0
  | .add _ q _ :: t => q + addsTotalQty t
  | .remove _ :: t => addsTotalQty t

/-- Quantity-weighted sum of the unit costs over all `add_items` calls. -/
def addsWeightedCost : List StoreOp → ℚ
  | [] => 0
  | .add _ q c :: t => c * (q : ℚ) + addsWeightedCost t
  | .remove _ :: t => addsWeightedCost t

def StoreOp.isRemove : StoreOp → Bool
  | .remove _ => true
  | .add _ _ _ => false

/-- The sequence performs all of its additions before any removal. -/
def addsThenRemoves : List StoreOp → Bool
  | [] => true
  | .add _ _ _ :: t => addsThenRemoves t
  | .remove _ :: t => t.all StoreOp.isRemove

/-- Run a sequence of storage calls on one product from an arbitrary state. -/
def runStoreFrom (name : String) (m : Items) (ops : List StoreOp) : Items :=
  ops.foldl (applyStoreOp name) m

/-! ## VendingMachine (src/vending_machine.py) -/

/-- One slot of `VendingMachine.slots`. -/
structure Slot where
  item : Option Item
  quantity : ℤ
  maxCapacity : ℤ
  sizeType : String
  deriving DecidableEq

/-- The `VendingMachine.slots` dict: slot id (`"row-slot"`) to slot. -/
def Machine := String → Option Slot

def initSlot (row : ℕ) : Slot :=
  { item := none
    quantity := 0
    maxCapacity := 10
    sizeType := if row < 2 then "small" else "large" }

/-- `VendingMachine.__init__`: 4 rows x 3 slots, rows 0-1 small, rows 2-3 large,
capacity 10 each. -/
def initMachine : Machine := fun sid =>
  if sid = "0-0" ∨ sid = "0-1" ∨ sid = "0-2" then some (initSlot 0)
  else if sid = "1-0" ∨ sid = "1-1" ∨ sid = "1-2" then some (initSlot 1)
  else if sid = "2-0" ∨ sid = "2-1" ∨ sid = "2-2" then some (initSlot 2)
  else if sid = "3-0" ∨ sid = "3-1" ∨ sid = "3-2" then some (initSlot 3)
  else none

/-- `VendingMachine.can_stock_item` (lines 27-42): the slot must exist, the
size must match, and the slot must be empty or hold the same item name. -/
def can_stock_item (m : Machine) (slotId : String) (item : Item) : Bool :=
  match m slotId with
  | none => false
  | some slot =>
    if slot.sizeType ≠ item.size then false
    else
      match slot.item with
      | none => true
      | some existing => existing.name = item.name

def updateSlot (m : Machine) (slotId : String) (s : Slot) : Machine :=
  fun k => if k = slotId then some s else m k

/-- `VendingMachine.stock_item` (lines 44-58): checks `can_stock_item`, then
the capacity, then sets the item and accumulates the quantity. -/
def stock_item (m : Machine) (slotId : String) (item : Item) (quantity : ℤ) :
    Machine × Bool :=
  if can_stock_item m slotId item then
    match m slotId with
    | none => (m, false)
    | some slot =>
      if slot.maxCapacity < slot.quantity + quantity then (m, false)
      else
        (updateSlot m slotId
          { slot with item := some item, quantity := slot.quantity + quantity }, true)
  else (m, false)

/-- `VendingMachine.sell_item` (lines 72-93): `None` when the slot is missing,
empty or at nonpositive quantity; otherwise sells `min quantity available`,
clears the item when the remaining quantity is zero, and returns the pair
(item, quantity actually sold). -/
def sell_item (m : Machine) (slotId : String) (quantity : ℤ) :
    Machine × Option (Item × ℤ) :=
  match m slotId with
  | none => (m, none)
  | some slot =>
    match slot.item with
    | none => (m, none)
    | some item =>
      if slot.quantity ≤ 0 then (m, none)
      else
        let actual := min quantity slot.quantity
        let q' := slot.quantity - actual
        if q' = 0 then
          (updateSlot m slotId { slot with item := none, quantity := q' }, some (item, actual))
        else
          (updateSlot m slotId { slot with quantity := q' }, some (item, actual))

/-- One `stock_item`/`sell_item` call. -/
inductive MachineOp where
  | stock (slotId : String) (item : Item) (qty : ℤ)
  | sell (slotId : String) (qty : ℤ)
  deriving DecidableEq

def applyMachineOp (m : Machine) : MachineOp → Machine
  | .stock sid it q => (stock_item m sid it q).1
  | .sell sid q => (sell_item m sid q).1

/-- Run a call sequence from the freshly constructed machine. -/
def runMachine (ops : List MachineOp) : Machine :=
  ops.foldl applyMachineOp initMachine

/-- Run a call sequence from an arbitrary machine state. -/
def runMachineFrom (m : Machine) (ops : List MachineOp) : Machine :=
  ops.foldl applyMachineOp m

/-- Positive stocked quantities, nonnegative sell quantities. -/
def machineOpWf : MachineOp → Bool
  | .stock _ _ q => 1 ≤ q
  | .sell _ q => 0 ≤ q

/-- The slot invariant claimed by the spec (spec.md section 3, Slot): size
compatibility, bounded quantity, and an empty slot holds no item. -/
def SlotInv (s : Slot) : Prop :=
  (∀ it, s.item = some it → it.size = s.sizeType)
  ∧ 0 ≤ s.quantity ∧ s.quantity ≤ s.maxCapacity
  ∧ (s.quantity = 0 → s.item = none)

def MachineInv (m : Machine) : Prop :=
  ∀ sid s, m sid = some s → SlotInv s

/-! Concrete values used by counterexamples and witnesses. -/

def coke : Item := { name := "Coke", size := "small", price := 2, cost := 1 }

def jug : Item := { name := "Jug", size := "large", price := 3, cost := 1 }

def c4demoOps : List StoreOp :=
  [.add "small" 10 1, .remove 5, .add "small" 5 2]

def c4witnessOps : List StoreOp :=
  [.add "small" 3 2, .add "small" 1 6, .remove 2]

def c5demoOps : List MachineOp := [.stock "0-0" coke 0]

def c5witnessOps : List MachineOp :=
  [.stock "0-0" coke 3, .sell "0-0" 5, .stock "2-1" jug 2]

/-- A slot holding 5 Cokes, used to exercise `sell_item`. -/
def slotW : Slot := { item := some coke, quantity := 5, maxCapacity := 10, sizeType := "small" }

/-- A machine whose slot 0-0 holds 5 Cokes. -/
def mW : Machine := updateSlot initMachine "0-0" slotW

/-! ## Deliveries (src/storage.py, schedule_delivery / process_arrivals)

Simulated time is modeled as minutes since the simulation epoch; the daily
anchor 6:00 AM of day `d` is minute `d * 1440 + 360`. -/

/-- One line item of a pending delivery: `{name, size, quantity, unit_cost}`. -/
structure DeliveryItem where
  name : String
  size : String
  quantity : ℤ
  unitCost : ℚ
  deriving DecidableEq

/-- One entry of `StorageSystem.pending_deliveries`. -/
structure Delivery where
  arrivalTime : ℕ
  supplier : String
  items : List DeliveryItem
  reference : Option String
  deriving DecidableEq

/-- The `StorageSystem` state touched by `process_arrivals`. -/
structure Storage where
  items : Items
  pendingDeliveries : List Delivery

/-- One `on_arrival` callback invocation, kept as structured data (the
human-readable notice body built in src/storage.py lines 216-228 is a
rendering of exactly these fields). -/
structure DeliveryNotice where
  supplier : String
  reference : Option String
  arrivalTime : ℕ
  lines : List DeliveryItem
  total : ℚ

/-- State produced by the per-delivery item loop
(src/storage.py lines 199-211). -/
structure ItemsCost where
  items : Items
  cost : ℚ
  lines : List DeliveryItem

/-- The item loop of `process_arrivals`: skips non-positive quantities and
empty names, otherwise applies `add_items` and accumulates the cost. -/
def processDeliveryItems : Items → List DeliveryItem → ItemsCost
  | m, [] => { items := m, cost := 0, lines := [] }
  | m, it :: rest =>
    if it.quantity ≤ 0 ∨ it.name = "" then processDeliveryItems m rest
    else
      let mc := add_items m it.name it.size it.quantity it.unitCost
      let r := processDeliveryItems mc.1 rest
      { items := r.items, cost := mc.2 + r.cost, lines := it :: r.lines }

/-- State produced by the delivery loop of `process_arrivals`. -/
structure ArrivalResult where
  items : Items
  totalCost : ℚ
  remaining : List Delivery
  notices : List DeliveryNotice

/-- The delivery loop of `process_arrivals` (src/storage.py lines 190-231):
arrived deliveries (arrival_time ≤ current_time) are processed into storage
and produce one notice each; the others are kept, in order. -/
def processPending (t : ℕ) : Items → List Delivery → ArrivalResult
  | m, [] => { items := m, totalCost := 0, remaining := [], notices := [] }
  | m, d :: rest =>
    if d.arrivalTime ≤ t then
      let r1 := processDeliveryItems m d.items
      let r2 := processPending t r1.items rest
      { items := r2.items
        totalCost := r1.cost + r2.totalCost
        remaining := r2.remaining
        notices :=
          { supplier := d.supplier, reference := d.reference, arrivalTime := d.arrivalTime,
            lines := r1.lines, total := r1.cost } :: r2.notices }
    else
      let r := processPending t m rest
      { items := r.items
        totalCost := r.totalCost
        remaining := d :: r.remaining
        notices := r.notices }

/-- `StorageSystem.process_arrivals` (src/storage.py lines 172-233): early
return 0.0 when nothing is pending, otherwise process matured deliveries,
replace the pending list by the remaining ones and return the total cost
together with the emitted delivery notices. -/
def process_arrivals (st : Storage) (t : ℕ) : Storage × ℚ × List DeliveryNotice :=
  if st.pendingDeliveries.isEmpty then (st, 0, [])
  else
    let r := processPending t st.items st.pendingDeliveries
    ({ items := r.items, pendingDeliveries := r.remaining }, r.totalCost, r.notices)

/-! ## EconomicModel (src/economic_environment.py) -/

/-- The sigmoid of `calculate_choice_multiplier`
(src/economic_environment.py line 129): `1 / (1 + exp(-k (n - x0)))` with
steepness `k = 0.5` and optimum `x0 = 10`. -/
noncomputable def choiceSigmoid (n : ℕ) : ℝ :=
  1 / (1 + Real.exp (-(0.5 : ℝ) * ((n : ℝ) - 10)))

/-- `calculate_choice_multiplier` (src/economic_environment.py lines 112-142):
hard return 0.5 at zero products; otherwise the sigmoid branch for at most 10
products, the exponentially damped sigmoid above 10, floored at 0.5.
The local variables `sigmoid` and `multiplier` of the source are inlined. -/
noncomputable def calculate_choice_multiplier (n : ℕ) : ℝ :=
  if n = 0 then 0.5
  else
    max 0.5
      (if n ≤ 10 then 0.5 + 0.5 * choiceSigmoid n
       else choiceSigmoid n * Real.exp (-(0.1 : ℝ) * ((n : ℝ) - 10)))

/-- Modelled from the spec (spec.md section 4.3, claim C8): the claimed
"exact form" of the choice multiplier — the floored piecewise sigmoid
expression, with no special case at a count of zero.  Kept for comparison
with `calculate_choice_multiplier`. -/
noncomputable def choiceMultiplierSpecForm (n : ℕ) : ℝ :=
  max 0.5
    (if n ≤ 10 then 0.5 + 0.5 * choiceSigmoid n
     else choiceSigmoid n * Real.exp (-(0.1 : ℝ) * ((n : ℝ) - 10)))

/-! ## EmailSystem (src/email_system.py)

`Email.timestamp` (wall-clock `datetime.now`) is irrelevant to every claim and
is omitted; the id prefix (`sent_`/`recv_`) is carried by the mailbox, the
counter value is kept. -/

/-- An `Email` (src/email_system.py lines 6-18). -/
structure Email where
  id : ℕ
  sender : String
  recipient : String
  subject : String
  body : String
  emailType : String
  read : Bool
  deriving DecidableEq

/-- The `EmailSystem` state (src/email_system.py lines 21-27). -/
structure EmailSystem where
  agentEmail : String
  inbox : List Email
  outbox : List Email
  emailCounter : ℕ
  deriving DecidableEq

def initEmailSystem : EmailSystem :=
  { agentEmail := "vending.operator@business.com"
    inbox := []
    outbox := []
    emailCounter := 0 }

/-- `EmailSystem.send_email` (lines 29-41). -/
def send_email (sys : EmailSystem) (recipient subject body : String)
    (emailType : String := "order") : EmailSystem :=
  let counter := sys.emailCounter + 1
  { sys with
    emailCounter := counter
    outbox := sys.outbox ++
      [{ id := counter, sender := sys.agentEmail, recipient := recipient,
         subject := subject, body := body, emailType := emailType, read := false }] }

/-- `EmailSystem.receive_email` (lines 43-55). -/
def receive_email (sys : EmailSystem) (sender subject body : String)
    (emailType : String := "supplier_response") : EmailSystem :=
  let counter := sys.emailCounter + 1
  { sys with
    emailCounter := counter
    inbox := sys.inbox ++
      [{ id := counter, sender := sender, recipient := sys.agentEmail,
         subject := subject, body := body, emailType := emailType, read := false }] }

/-- Python's `in` on strings: substring containment. -/
def pyIn (needle haystack : String) : Prop :=
  needle.data <:+: haystack.data

instance (a b : String) : Decidable (pyIn a b) :=
  inferInstanceAs (Decidable (a.data <:+: b.data))

/-- The skip condition of `generate_supplier_responses`
(src/email_system.py lines 186-188): an inbox email whose subject starts with
"Re:" and contains the sent subject as a substring. -/
def replyMatches (sent e : Email) : Prop :=
  ("Re:".data <+: e.subject.data) ∧ pyIn sent.subject e.subject

instance (sent e : Email) : Decidable (replyMatches sent e) :=
  inferInstanceAs (Decidable (_ ∧ _))

def matchedInInbox (inbox : List Email) (sent : Email) : Bool :=
  inbox.any fun e => decide (replyMatches sent e)

/-- The fixed acknowledgment used when response synthesis fails
(src/email_system.py line 251). -/
def supplierFallbackBody (err : String) : String :=
  "We acknowledge your inquiry and will follow up shortly. (Error: " ++ err ++ ")"

/-- The body of the synthesized reply.  The oracle stands for the whole
try-block of `generate_supplier_responses` (context search, inference call
and supplier tool execution); `.error` is the raised exception caught by the
`except` branch, which substitutes the fixed fallback. -/
def supplierReplyBody (oracle : Email → Except String String) (sent : Email) : String :=
  match oracle sent with
  | .ok b => b
  | .error e => supplierFallbackBody e

/-- One iteration of the `generate_supplier_responses` loop: skip the sent
email when the (live, growing) inbox already holds a matching reply,
otherwise append exactly one reply. -/
def supplierStep (oracle : Email → Except String String)
    (acc : EmailSystem) (sent : Email) : EmailSystem :=
  if matchedInInbox acc.inbox sent then acc
  else
    receive_email acc sent.recipient ("Re: " ++ sent.subject)
      (supplierReplyBody oracle sent) "response"

/-- `EmailSystem.generate_supplier_responses` (src/email_system.py lines
176-257): scan the outbox snapshot in order, applying `supplierStep` — the
synthesized body on success, the fixed fallback when the oracle fails. -/
def generate_supplier_responses (oracle : Email → Except String String)
    (sys : EmailSystem) : EmailSystem :=
  sys.outbox.foldl (supplierStep oracle) sys

/-- What it means for `e` to be the reply synthesized for the sent email `s'`
by a system whose agent address is `agentEmail`. -/
def isSynthReply (agentEmail : String) (oracle : Email → Except String String)
    (s' e : Email) : Prop :=
  e.sender = s'.recipient ∧ e.recipient = agentEmail
    ∧ e.subject = "Re: " ++ s'.subject ∧ e.body = supplierReplyBody oracle s'
    ∧ e.emailType = "response" ∧ e.read = false

/-- Outbox with subjects "Order 2" then "Order": demonstrates the
substring-matching skip. -/
def c9sent1 : Email :=
  { id := 1, sender := "vending.operator@business.com", recipient := "supplier@x.com",
    subject := "Order 2", body := "20 units please", emailType := "order", read := false }

def c9sent2 : Email :=
  { id := 2, sender := "vending.operator@business.com", recipient := "supplier@x.com",
    subject := "Order", body := "10 units please", emailType := "order", read := false }

def c9demoSys : EmailSystem :=
  { agentEmail := "vending.operator@business.com"
    inbox := []
    outbox := [c9sent1, c9sent2]
    emailCounter := 2 }

def c9okOracle : Email → Except String String := fun _ => .ok "Confirmed."

def c9failOracle : Email → Except String String := fun _ => .error "network down"

def c9wSys : EmailSystem :=
  { agentEmail := "vending.operator@business.com"
    inbox := []
    outbox := [c9sent2]
    emailCounter := 1 }

/-! ## Simulation day cycle (src/main_simulation.py, src/agent.py)

Simulated time is minutes since midnight of the start day; the simulation
starts at 6:00 AM, minute 360.  Weather randomness
(`weather.generate_next_weather`) and the supplier-response inference are
passed as oracle parameters; the calendar month of a day index is abstracted
by a `monthOf` parameter (the real start date comes from the wall clock). -/

def STARTING_BALANCE : ℤ := 500

def DAILY_FEE : ℤ := 2

/-- `current_time.replace(hour=6, minute=0, second=0, microsecond=0)`:
6:00 AM of the current day. -/
def currentSixAm (t : ℕ) : ℕ := (t / 1440) * 1440 + 360

/-- `VendingMachineAgent.is_new_day_at_6am` (src/agent.py lines 108-130):
returns whether the rollover fires together with the updated
`last_6am_time`.  On the first check it records the current day's 6 AM and
fires when the time is at or past it; afterwards it fires when the time is
at least one day past the recorded value, and then records the *next* day's
6 AM. -/
def is_new_day_at_6am (t : ℕ) (last : Option ℕ) : Bool × Option ℕ :=
  match last with
  | none => (decide (currentSixAm t ≤ t), some (currentSixAm t))
  | some l =>
    if l + 1440 ≤ t then (true, some (currentSixAm t + 1440))
    else (false, some l)

/-- The individual state transitions a day rollover can perform. -/
inductive RolloverStep where
  | feeDeduction
  | weatherTransition
  | deliveryProcessing
  | supplierResponses
  | salesSettlement
  | reportComposition
  deriving DecidableEq

/-- Modelled from the spec (spec.md section 4.5, claim C2): the six rollover
steps the spec claims `handle_new_day` performs, in its fixed order. -/
def claimedRolloverSteps : List RolloverStep :=
  [.feeDeduction, .weatherTransition, .deliveryProcessing, .supplierResponses,
    .salesSettlement, .reportComposition]

/-- `get_season` (src/main_simulation.py lines 93-103). -/
def get_season (month : ℕ) : String :=
  if month = 12 ∨ month = 1 ∨ month = 2 then "Winter"
  else if month = 3 ∨ month = 4 ∨ month = 5 then "Spring"
  else if month = 6 ∨ month = 7 ∨ month = 8 then "Summer"
  else "Fall"

def unreadCount (sys : EmailSystem) : ℕ :=
  (sys.inbox.filter fun e => !e.read).length

/-- The data carried by the textual daily report of `get_day_report`
(src/main_simulation.py lines 57-91); the string formatting is a fixed
rendering of exactly these fields. -/
structure DayReport where
  balance : ℤ
  daysInOperation : ℕ
  dailyFee : ℤ
  weather : String
  season : String
  messageCount : ℕ
  unreadEmails : ℕ
  deriving DecidableEq

/-- The mutable state of `VendingMachineSimulation` together with the agent's
`last_6am_time` and the database rows.  `weatherTransitions` instruments the
assignments to `current_weather`; the unused `inventory` dict and the
simulation id are omitted (the simulation object holds no storage system and
no vending machine). -/
structure SimState where
  time : ℕ
  balance : ℤ
  messageCount : ℕ
  daysPassed : ℕ
  weather : String
  weatherTransitions : ℕ
  emails : EmailSystem
  logs : List (ℕ × ℤ)
  lastSixAm : Option ℕ
  storeState : Bool
  deriving DecidableEq

/-- `VendingMachineSimulation.__init__` (src/main_simulation.py lines 13-32):
start at 6:00 AM, balance 500, sunny, one unconditional `log_state` row. -/
def initSim : SimState :=
  { time := 360
    balance := STARTING_BALANCE
    messageCount := 0
    daysPassed := 0
    weather := "sunny"
    weatherTransitions := 0
    emails := initEmailSystem
    logs := [(360, STARTING_BALANCE)]
    lastSixAm := none
    storeState := true }

/-- `get_day_report`, as structured data. -/
def get_day_report (monthOf : ℕ → ℕ) (st : SimState) : DayReport :=
  { balance := st.balance
    daysInOperation := st.daysPassed
    dailyFee := DAILY_FEE
    weather := st.weather
    season := get_season (monthOf (st.time / 1440))
    messageCount := st.messageCount
    unreadEmails := unreadCount st.emails }

/-- `VendingMachineSimulation.handle_new_day` (src/main_simulation.py lines
106-122), instrumented with the trace of rollover steps actually performed,
in order: fee deduction (with `days_passed`) only when `message_count > 1`,
then the weather transition, then supplier-response synthesis, then the
report. -/
def handle_new_day (genWeather : ℕ → String → String) (monthOf : ℕ → ℕ)
    (oracle : Email → Except String String) (st : SimState) :
    SimState × DayReport × List RolloverStep :=
  let st1 :=
    if 1 < st.messageCount then
      { st with daysPassed := st.daysPassed + 1, balance := st.balance - DAILY_FEE }
    else st
  let tr1 : List RolloverStep :=
    if 1 < st.messageCount then [RolloverStep.feeDeduction] else []
  let st2 :=
    { st1 with
      weather := genWeather (monthOf (st1.time / 1440)) st1.weather
      weatherTransitions := st1.weatherTransitions + 1 }
  let st3 := { st2 with emails := generate_supplier_responses oracle st2.emails }
  (st3, get_day_report monthOf st3,
    tr1 ++ [RolloverStep.weatherTransition, RolloverStep.supplierResponses,
      RolloverStep.reportComposition])

/-- The agent action taken during one tick: the `wait_for_next_day` tool or an
action that does not advance simulated time (send/read email, check storage,
or no tool). -/
inductive AgentAct where
  | waitForNextDay
  | noop
  deriving DecidableEq

/-- `tools.wait_for_next_day` (src/tools.py lines 8-27): jump to 6:00 AM of
the next calendar day. -/
def wait_for_next_day (t : ℕ) : ℕ := ((t / 1440) + 1) * 1440 + 360

/-- One `VendingMachineSimulation.run_agent` call (src/main_simulation.py
lines 124-138 together with `VendingMachineAgent.run_agent`, src/agent.py
lines 132-192): increment `message_count`, run the 6 AM check (which always
updates `last_6am_time`), on fire run `handle_new_day`, execute the tool the
model chose, then log state.  Returns the new state and whether the rollover
fired. -/
def run_agent (genWeather : ℕ → String → String) (monthOf : ℕ → ℕ)
    (oracle : Email → Except String String) (act : AgentAct) (st : SimState) :
    SimState × Bool :=
  let st0 := { st with messageCount := st.messageCount + 1 }
  let check := is_new_day_at_6am st0.time st0.lastSixAm
  let st1 := { st0 with lastSixAm := check.2 }
  let st2 := if check.1 then (handle_new_day genWeather monthOf oracle st1).1 else st1
  let st3 :=
    match act with
    | AgentAct.waitForNextDay => { st2 with time := wait_for_next_day st2.time }
    | AgentAct.noop => st2
  if st3.storeState then ({ st3 with logs := st3.logs ++ [(st3.time, st3.balance)] }, check.1)
  else (st3, check.1)

/-- Run a sequence of agent actions. -/
def runSim (genWeather : ℕ → String → String) (monthOf : ℕ → ℕ)
    (oracle : Email → Except String String) (acts : List AgentAct) (st : SimState) :
    SimState :=
  acts.foldl (fun s a => (run_agent genWeather monthOf oracle a s).1) st

/-- The per-action rollover-fired flags of a run. -/
def runSimFires (genWeather : ℕ → String → String) (monthOf : ℕ → ℕ)
    (oracle : Email → Except String String) : List AgentAct → SimState → List Bool
  | [], _ => []
  | a :: rest, st =>
    (run_agent genWeather monthOf oracle a st).2 ::
      runSimFires genWeather monthOf oracle rest (run_agent genWeather monthOf oracle a st).1

/-- Degenerate oracles for concrete runs: weather unchanged, June, inference
returning an empty reply. -/
def idWeather : ℕ → String → String := fun _ w => w

def juneMonth : ℕ → ℕ := fun _ => 6

def emptyOracle : Email → Except String String := fun _ => .ok ""

def c1acts : List AgentAct := [.waitForNextDay, .waitForNextDay, .waitForNextDay]

def c3acts : List AgentAct :=
  [.waitForNextDay, .waitForNextDay, .waitForNextDay, .waitForNextDay]

/-- A mid-run simulation state (past the first tick) for exercising
`handle_new_day` alone. -/
def c2demoSim : SimState :=
  { initSim with messageCount := 5, time := 360 + 5 * 1440 }


/-! ## Lemmas for the storage cost accounting (C4) -/

theorem updateItems_self (m : Items) (k : String) (v : Option StorageRec) :
    updateItems m k v k = v := by
  simp [updateItems]

theorem updateItems_lookup (m : Items) (k k' : String) (v : Option StorageRec) :
    updateItems m k v k' = if k' = k then v else m k' := rfl

theorem addRecord_quantity (m : Items) (name size : String) (q : ℤ) (c p : ℚ) :
    (addRecord m name size q c p).quantity
      = ((m name).getD (defaultRec name size c p)).quantity + q := rfl

theorem addRecord_avg (m : Items) (name size : String) (q : ℤ) (c p : ℚ) :
    (addRecord m name size q c p).avgUnitCost
      = storageNewAvg ((m name).getD (defaultRec name size c p)) q c := rfl

theorem runStoreFrom_nil (name : String) (m : Items) : runStoreFrom name m [] = m := rfl

theorem runStoreFrom_cons (name : String) (m : Items) (op : StoreOp) (t : List StoreOp) :
    runStoreFrom name m (op :: t) = runStoreFrom name (applyStoreOp name m op) t := rfl

theorem applyStoreOp_nonneg (name : String) (op : StoreOp) (m : Items)
    (hq : 0 ≤ op.qty) (h : ∀ k r, m k = some r → 0 ≤ r.quantity) :
    ∀ k r, applyStoreOp name m op k = some r → 0 ≤ r.quantity := by
  cases op with
  | add size q c =>
    intro k r hr
    replace hr : updateItems m name (some (addRecord m name size q c 0)) k = some r := hr
    rw [updateItems_lookup] at hr
    simp only [StoreOp.qty] at hq
    split at hr
    · cases hr
      rw [addRecord_quantity]
      rcases hm : m name with _ | r₀
      · simp only [hm, Option.getD_none, defaultRec]
        omega
      · simp only [hm, Option.getD_some]
        have := h name r₀ hm
        omega
    · exact h k r hr
  | remove q =>
    intro k r hr
    simp only [applyStoreOp, remove_items] at hr
    split at hr
    · exact h k r hr
    · rename_i r₀ hm
      split at hr
      · exact h k r hr
      · rename_i hlt
        split at hr
        · replace hr : updateItems m name none k = some r := hr
          rw [updateItems_lookup] at hr
          split at hr
          · cases hr
          · exact h k r hr
        · replace hr :
              updateItems m name (some { r₀ with quantity := r₀.quantity - q }) k
                = some r := hr
          rw [updateItems_lookup] at hr
          split at hr
          · cases hr
            show 0 ≤ r₀.quantity - q
            omega
          · exact h k r hr

theorem runStoreFrom_nonneg (name : String) (ops : List StoreOp) (m : Items)
    (hq : ∀ op ∈ ops, 0 ≤ op.qty) (h : ∀ k r, m k = some r → 0 ≤ r.quantity) :
    ∀ k r, runStoreFrom name m ops k = some r → 0 ≤ r.quantity := by
  induction ops generalizing m with
  | nil => exact h
  | cons op t ih =>
    exact ih (applyStoreOp name m op)
      (fun o ho => hq o (List.mem_cons_of_mem _ ho))
      (applyStoreOp_nonneg name op m (hq op (List.mem_cons_self _ _)) h)

/-- Invariant maintained along a pure-addition phase of the history:
tq is the total quantity added so far, ws the weighted cost sum. -/
def AddPhaseInv (name : String) (m : Items) (tq : ℤ) (ws : ℚ) : Prop :=
  0 ≤ tq ∧
    ((m name = none ∧ tq = 0 ∧ ws = 0) ∨
      (∃ r, m name = some r ∧ r.quantity = tq ∧ r.avgUnitCost * (tq : ℚ) = ws))

/-- Weaker invariant carried through removals: the average, while the record
still exists, keeps encoding the weighted sum of all past additions. -/
def RemPhaseInv (name : String) (m : Items) (tq : ℤ) (ws : ℚ) : Prop :=
  ∀ r, m name = some r → r.avgUnitCost * (tq : ℚ) = ws

theorem storageNewAvg_mul (r : StorageRec) (q : ℤ) (c : ℚ)
    (hr : 0 ≤ r.quantity) (hq : 0 ≤ q) :
    storageNewAvg r q c * ((r.quantity + q : ℤ) : ℚ)
      = r.avgUnitCost * (r.quantity : ℚ) + c * (q : ℚ) := by
  unfold storageNewAvg
  split
  · rename_i hpos
    have hne : ((r.quantity + q : ℤ) : ℚ) ≠ 0 := by
      exact_mod_cast hpos.ne'
    rw [div_mul_cancel₀ _ hne]
  · rename_i hpos
    have h1 : r.quantity = 0 := by omega
    have h2 : q = 0 := by omega
    rw [h1, h2]
    push_cast
    ring

theorem addPhase_step (name size : String) (q : ℤ) (c : ℚ) (m : Items)
    (tq : ℤ) (ws : ℚ) (hq : 0 ≤ q) (h : AddPhaseInv name m tq ws) :
    AddPhaseInv name (applyStoreOp name m (.add size q c)) (tq + q) (ws + c * (q : ℚ)) := by
  obtain ⟨htq, hcase⟩ := h
  refine ⟨by omega, Or.inr ?_⟩
  refine ⟨addRecord m name size q c 0, ?_, ?_, ?_⟩
  · show updateItems m name (some (addRecord m name size q c 0)) name = _
    rw [updateItems_self]
  · rw [addRecord_quantity]
    rcases hcase with ⟨hm, htq0, _⟩ | ⟨r, hm, hrq, _⟩
    · simp only [hm, Option.getD_none, defaultRec]
      omega
    · simp only [hm, Option.getD_some]
      omega
  · rw [addRecord_avg]
    rcases hcase with ⟨hm, htq0, hws0⟩ | ⟨r, hm, hrq, hrw⟩
    · subst htq0
      subst hws0
      simp only [hm, Option.getD_none]
      have h3 := storageNewAvg_mul (defaultRec name size c 0) q c
        (by simp [defaultRec]) hq
      simp only [defaultRec] at h3 ⊢
      simpa using h3
    · simp only [hm, Option.getD_some]
      have h3 := storageNewAvg_mul r q c (by omega) hq
      rw [hrq] at h3
      rw [h3, hrw]

theorem remPhase_step (name : String) (q : ℤ) (m : Items) (tq : ℤ) (ws : ℚ)
    (h : RemPhaseInv name m tq ws) :
    RemPhaseInv name (applyStoreOp name m (.remove q)) tq ws := by
  intro r hr
  simp only [applyStoreOp, remove_items] at hr
  split at hr
  · exact h r hr
  · rename_i r₀ hm
    split at hr
    · exact h r hr
    · split at hr
      · replace hr : updateItems m name none name = some r := hr
        rw [updateItems_self] at hr
        cases hr
      · replace hr :
            updateItems m name (some { r₀ with quantity := r₀.quantity - q }) name
              = some r := hr
        rw [updateItems_self] at hr
        cases hr
        exact h r₀ hm

theorem remPhase_run (name : String) (ops : List StoreOp) (m : Items) (tq : ℤ) (ws : ℚ)
    (hall : ops.all StoreOp.isRemove = true) (h : RemPhaseInv name m tq ws) :
    RemPhaseInv name (runStoreFrom name m ops) tq ws := by
  induction ops generalizing m with
  | nil => exact h
  | cons op t ih =>
    simp only [List.all_cons, Bool.and_eq_true] at hall
    obtain ⟨hop, ht⟩ := hall
    cases op with
    | add size q c => simp [StoreOp.isRemove] at hop
    | remove q =>
      exact ih (applyStoreOp name m (.remove q)) ht (remPhase_step name q m tq ws h)

theorem allRemoves_totals (ops : List StoreOp) (hall : ops.all StoreOp.isRemove = true) :
    addsTotalQty ops = 0 ∧ addsWeightedCost ops = 0 := by
  induction ops with
  | nil => simp [addsTotalQty, addsWeightedCost]
  | cons op t ih =>
    simp only [List.all_cons, Bool.and_eq_true] at hall
    obtain ⟨hop, ht⟩ := hall
    cases op with
    | add size q c => simp [StoreOp.isRemove] at hop
    | remove q =>
      simp only [addsTotalQty, addsWeightedCost]
      exact ih ht

theorem addsThenRemoves_run (name : String) (ops : List StoreOp) (m : Items)
    (tq : ℤ) (ws : ℚ) (hshape : addsThenRemoves ops = true)
    (hq : ∀ op ∈ ops, 0 ≤ op.qty) (h : AddPhaseInv name m tq ws) :
    RemPhaseInv name (runStoreFrom name m ops)
      (tq + addsTotalQty ops) (ws + addsWeightedCost ops) := by
  induction ops generalizing m tq ws with
  | nil =>
    intro r hr
    rw [runStoreFrom_nil] at hr
    simp only [addsTotalQty, addsWeightedCost, add_zero]
    rcases h.2 with ⟨hm, _, _⟩ | ⟨r', hm, _, hrw⟩
    · rw [hr] at hm
      cases hm
    · rw [hr] at hm
      cases hm
      exact hrw
  | cons op t ih =>
    cases op with
    | add size q c =>
      have hshape' : addsThenRemoves t = true := hshape
      have hstep := addPhase_step name size q c m tq ws
        (hq _ (List.mem_cons_self _ _)) h
      have hrec := ih (applyStoreOp name m (.add size q c)) (tq + q) (ws + c * (q : ℚ))
        hshape' (fun o ho => hq o (List.mem_cons_of_mem _ ho)) hstep
      rw [runStoreFrom_cons]
      simp only [addsTotalQty, addsWeightedCost]
      have harr : tq + q + addsTotalQty t = tq + (q + addsTotalQty t) := by ring
      have harr2 : ws + c * (q : ℚ) + addsWeightedCost t
          = ws + (c * (q : ℚ) + addsWeightedCost t) := by ring
      rw [harr, harr2] at hrec
      exact hrec
    | remove q =>
      have hall : t.all StoreOp.isRemove = true := hshape
      have h0 : RemPhaseInv name m tq ws := by
        intro r hr
        rcases h.2 with ⟨hm, _, _⟩ | ⟨r', hm, _, hrw⟩
        · rw [hr] at hm
          cases hm
        · rw [hr] at hm
          cases hm
          exact hrw
      have h1 := remPhase_step name q m tq ws h0
      have h2 := remPhase_run name t (applyStoreOp name m (.remove q)) tq ws hall h1
      obtain ⟨hto, hwo⟩ := allRemoves_totals t hall
      rw [runStoreFrom_cons]
      simp only [addsTotalQty, addsWeightedCost, hto, hwo, add_zero]
      exact h2

/-! ## Lemmas for the vending machine slot invariant (C5, C7) -/

theorem updateSlot_lookup (m : Machine) (k k' : String) (s : Slot) :
    updateSlot m k s k' = if k' = k then some s else m k' := rfl

theorem slotInv_initSlot (row : ℕ) : SlotInv (initSlot row) := by
  simp [SlotInv, initSlot]

theorem machineInv_init : MachineInv initMachine := by
  intro sid s hs
  unfold initMachine at hs
  split at hs
  · cases hs
    exact slotInv_initSlot 0
  · split at hs
    · cases hs
      exact slotInv_initSlot 1
    · split at hs
      · cases hs
        exact slotInv_initSlot 2
      · split at hs
        · cases hs
          exact slotInv_initSlot 3
        · cases hs

theorem can_stock_item_size (m : Machine) (sid : String) (it : Item) (slot : Slot)
    (hm : m sid = some slot) (hcan : can_stock_item m sid it = true) :
    it.size = slot.sizeType := by
  unfold can_stock_item at hcan
  split at hcan
  · cases hcan
  · rename_i slot' hm'
    rw [hm] at hm'
    cases hm'
    split at hcan
    · cases hcan
    · rename_i hsz
      exact (not_ne_iff.mp hsz).symm

theorem stock_item_inv (m : Machine) (sid : String) (it : Item) (q : ℤ)
    (hq : 1 ≤ q) (h : MachineInv m) : MachineInv (stock_item m sid it q).1 := by
  intro k s hs
  unfold stock_item at hs
  split at hs
  · rename_i hcan
    split at hs
    · exact h k s hs
    · rename_i slot hm
      split at hs
      · exact h k s hs
      · rename_i hcap
        replace hs :
            updateSlot m sid { slot with item := some it, quantity := slot.quantity + q } k
              = some s := hs
        rw [updateSlot_lookup] at hs
        split at hs
        · cases hs
          obtain ⟨hsize, hq0, hcapb, hzero⟩ := h sid slot hm
          refine ⟨?_, ?_, ?_, ?_⟩
          · intro it' hit'
            have hit2 : some it = some it' := hit'
            cases hit2
            exact can_stock_item_size m sid it slot hm hcan
          · show 0 ≤ slot.quantity + q
            omega
          · show slot.quantity + q ≤ slot.maxCapacity
            omega
          · intro hzq
            have hzq' : slot.quantity + q = 0 := hzq
            omega
        · exact h k s hs
  · exact h k s hs

theorem sell_item_inv (m : Machine) (sid : String) (q : ℤ)
    (hq : 0 ≤ q) (h : MachineInv m) : MachineInv (sell_item m sid q).1 := by
  intro k s hs
  unfold sell_item at hs
  split at hs
  · exact h k s hs
  · rename_i slot hm
    split at hs
    · exact h k s hs
    · rename_i it hit
      split at hs
      · exact h k s hs
      · rename_i hpos
        obtain ⟨hsize, hq0, hcapb, hzero⟩ := h sid slot hm
        have hminle : min q slot.quantity ≤ slot.quantity := min_le_right _ _
        have hminnn : 0 ≤ min q slot.quantity := le_min hq (by omega)
        dsimp only at hs
        split at hs
        · rename_i hz
          replace hs :
              updateSlot m sid
                  { slot with item := none, quantity := slot.quantity - min q slot.quantity } k
                = some s := hs
          rw [updateSlot_lookup] at hs
          split at hs
          · cases hs
            refine ⟨?_, ?_, ?_, ?_⟩
            · intro it' hit'
              exact absurd (show (none : Option Item) = some it' from hit') (by simp)
            · show 0 ≤ slot.quantity - min q slot.quantity
              omega
            · show slot.quantity - min q slot.quantity ≤ slot.maxCapacity
              omega
            · intro _
              rfl
          · exact h k s hs
        · rename_i hz
          replace hs :
              updateSlot m sid { slot with quantity := slot.quantity - min q slot.quantity } k
                = some s := hs
          rw [updateSlot_lookup] at hs
          split at hs
          · cases hs
            refine ⟨?_, ?_, ?_, ?_⟩
            · intro it' hit'
              exact hsize it' hit'
            · show 0 ≤ slot.quantity - min q slot.quantity
              omega
            · show slot.quantity - min q slot.quantity ≤ slot.maxCapacity
              omega
            · intro hzq
              exact absurd hzq hz
          · exact h k s hs

theorem runMachineFrom_inv (ops : List MachineOp) (m : Machine)
    (h : ops.all machineOpWf = true) (hm : MachineInv m) :
    MachineInv (runMachineFrom m ops) := by
  induction ops generalizing m with
  | nil => exact hm
  | cons op t ih =>
    simp only [List.all_cons, Bool.and_eq_true] at h
    obtain ⟨hop, ht⟩ := h
    cases op with
    | stock sid it q =>
      have hq : 1 ≤ q := by
        simpa [machineOpWf] using hop
      exact ih (applyMachineOp m (.stock sid it q)) ht (stock_item_inv m sid it q hq hm)
    | sell sid q =>
      have hq : 0 ≤ q := by
        simpa [machineOpWf] using hop
      exact ih (applyMachineOp m (.sell sid q)) ht (sell_item_inv m sid q hq hm)

/-! ## Claim C4 -/

/-- C4, corrected. For every sequence of add_items/remove_items calls on one
product name with nonnegative quantities: the stored quantity never goes
negative; and — provided all additions precede the removals — the stored
avg_unit_cost equals the exact quantity-weighted mean of the unit costs of all
additions since the record came into existence.  (When an addition follows a
removal, the code instead weights the prior average by the post-removal
quantity, so the claimed equality fails; see the counterexample.) -/
theorem c4_weighted_average_amended (name : String) (ops : List StoreOp)
    (hq : ∀ op ∈ ops, 0 ≤ op.qty) :
    (∀ r, runStore name ops name = some r → 0 ≤ r.quantity)
    ∧ (addsThenRemoves ops = true →
        ∀ r, runStore name ops name = some r →
          r.avgUnitCost * ((addsTotalQty ops : ℤ) : ℚ) = addsWeightedCost ops
          ∧ (0 < addsTotalQty ops →
              r.avgUnitCost = addsWeightedCost ops / ((addsTotalQty ops : ℤ) : ℚ))) := by
  constructor
  · intro r hr
    exact runStoreFrom_nonneg name ops emptyItems hq
      (by intro k r' h'; exact absurd h' (by simp [emptyItems])) name r hr
  · intro hshape r hr
    have hbase : AddPhaseInv name emptyItems 0 0 :=
      ⟨le_refl 0, Or.inl ⟨rfl, rfl, rfl⟩⟩
    have h2 := addsThenRemoves_run name ops emptyItems 0 0 hshape hq hbase
    have h3 := h2 r hr
    rw [zero_add, zero_add] at h3
    refine ⟨h3, ?_⟩
    intro hpos
    have hne : ((addsTotalQty ops : ℤ) : ℚ) ≠ 0 := by
      exact_mod_cast hpos.ne'
    rw [eq_div_iff hne]
    exact h3

/-- C4 counterexample: after add 10 @ $1, remove 5, add 5 @ $2, the stored
average is 3/2 while the quantity-weighted mean of all additions since the
record came into existence is 4/3. -/
theorem c4_avg_after_interleaved_remove_counterexample :
    ∃ r, runStore "soda" c4demoOps "soda" = some r
      ∧ r.avgUnitCost = 3 / 2
      ∧ addsWeightedCost c4demoOps / ((addsTotalQty c4demoOps : ℤ) : ℚ) = 4 / 3
      ∧ r.avgUnitCost ≠ addsWeightedCost c4demoOps / ((addsTotalQty c4demoOps : ℤ) : ℚ) := by
  refine ⟨{ item := { name := "soda", size := "small", price := 0, cost := 3 / 2 }
            quantity := 10
            avgUnitCost := 3 / 2 }, ?_, rfl, ?_, ?_⟩
  · simp [runStore, applyStoreOp, add_items, addRecord, defaultRec, storageNewAvg,
      remove_items, updateItems, emptyItems, c4demoOps]
    norm_num
  · simp [addsWeightedCost, addsTotalQty, c4demoOps]
    norm_num
  · simp [addsWeightedCost, addsTotalQty, c4demoOps]
    norm_num

/-- Witness for C4: a concrete nonnegative adds-then-removes history. -/
theorem c4_weighted_average_amended_witness :
    (∀ op ∈ c4witnessOps, 0 ≤ op.qty)
    ∧ ((∀ r, runStore "soda" c4witnessOps "soda" = some r → 0 ≤ r.quantity)
      ∧ (addsThenRemoves c4witnessOps = true →
          ∀ r, runStore "soda" c4witnessOps "soda" = some r →
            r.avgUnitCost * ((addsTotalQty c4witnessOps : ℤ) : ℚ)
              = addsWeightedCost c4witnessOps
            ∧ (0 < addsTotalQty c4witnessOps →
                r.avgUnitCost
                  = addsWeightedCost c4witnessOps / ((addsTotalQty c4witnessOps : ℤ) : ℚ)))) :=
  ⟨by decide, c4_weighted_average_amended "soda" c4witnessOps (by decide)⟩

/-! ## Claim C5 -/

/-- C5, corrected. After any sequence of stock_item/sell_item calls with
positive stocked quantities and nonnegative sell quantities, every slot
satisfies: a present item's size matches the slot's size_type,
0 ≤ quantity ≤ max_capacity, and quantity = 0 implies the item is cleared.
(Stocking a quantity of 0 is accepted by the code and plants an item at
quantity 0, breaking the last conjunct; see the counterexample.) -/
theorem c5_slot_invariant_amended (ops : List MachineOp)
    (h : ops.all machineOpWf = true) : MachineInv (runMachine ops) :=
  runMachineFrom_inv ops initMachine h machineInv_init

/-- C5 counterexample: stocking 0 units of a size-matching item into the empty
slot 0-0 succeeds and leaves the slot with an item present at quantity 0,
violating the claimed invariant. -/
theorem c5_zero_quantity_stock_counterexample : ¬ MachineInv (runMachine c5demoOps) := by
  intro h
  have h0 := h "0-0"
    { item := some coke, quantity := 0, maxCapacity := 10, sizeType := "small" }
    (by decide)
  have h1 := h0.2.2.2 rfl
  simp at h1

/-- Witness for C5: a concrete well-formed stock/sell history. -/
theorem c5_slot_invariant_amended_witness :
    (c5witnessOps.all machineOpWf = true) ∧ MachineInv (runMachine c5witnessOps) :=
  ⟨by decide, c5_slot_invariant_amended c5witnessOps (by decide)⟩

/-! ## Claim C7 -/

/-- C7, confirmed. `sell_item` never removes more than the slot's current
quantity (the quantity sold is `min requested available`), returns the pair
(item, quantity actually sold), leaves a nonnegative quantity, clears the
slot's item exactly when the remaining quantity is zero, touches no other
slot, and is a no-op returning `none` whenever the slot is missing, empty,
or at nonpositive quantity. -/
theorem c7_sell_item_clamps (m : Machine) (sid : String) (q : ℤ) :
    ((∀ s, m sid = some s → s.quantity ≤ 0 ∨ s.item = none) →
      sell_item m sid q = (m, none))
    ∧ (∀ s it, m sid = some s → s.item = some it → 0 < s.quantity →
        (sell_item m sid q).2 = some (it, min q s.quantity)
        ∧ min q s.quantity ≤ s.quantity
        ∧ (∃ s', (sell_item m sid q).1 sid = some s'
            ∧ s'.quantity = s.quantity - min q s.quantity
            ∧ 0 ≤ s'.quantity
            ∧ (s'.quantity = 0 → s'.item = none)
            ∧ (s'.quantity ≠ 0 → s'.item = some it))
        ∧ (∀ k, k ≠ sid → (sell_item m sid q).1 k = m k)) := by
  constructor
  · intro hvac
    unfold sell_item
    split
    · rfl
    · rename_i slot hm
      split
      · rfl
      · rename_i it hit
        rcases hvac slot hm with hle | hnone
        · rw [if_pos hle]
        · rw [hit] at hnone
          exact absurd hnone (by simp)
  · intro s it hm hit hpos
    have hminle : min q s.quantity ≤ s.quantity := min_le_right _ _
    unfold sell_item
    rw [hm]
    dsimp only
    rw [hit]
    dsimp only
    rw [if_neg (by omega : ¬ s.quantity ≤ 0)]
    try dsimp only
    by_cases hz : s.quantity - min q s.quantity = 0
    · rw [if_pos hz]
      try dsimp only
      refine ⟨rfl, hminle,
        ⟨{ s with item := none, quantity := s.quantity - min q s.quantity },
          ?_, ?_, ?_, ?_, ?_⟩, ?_⟩
      · rw [updateSlot_lookup, if_pos rfl]
      · rfl
      · show 0 ≤ s.quantity - min q s.quantity
        omega
      · intro _
        rfl
      · intro hne
        exact absurd hz hne
      · intro k hk
        show updateSlot m sid _ k = m k
        rw [updateSlot_lookup, if_neg hk]
    · rw [if_neg hz]
      try dsimp only
      refine ⟨rfl, hminle,
        ⟨{ s with item := some it, quantity := s.quantity - min q s.quantity },
          ?_, ?_, ?_, ?_, ?_⟩, ?_⟩
      · rw [updateSlot_lookup, if_pos rfl]
      · rfl
      · show 0 ≤ s.quantity - min q s.quantity
        omega
      · intro hzq
        exact absurd hzq hz
      · intro _
        rfl
      · intro k hk
        show updateSlot m sid _ k = m k
        rw [updateSlot_lookup, if_neg hk]

/-- Witness for C7: selling 7 from a slot holding 5 Cokes sells 5. -/
theorem c7_sell_item_clamps_witness :
    (mW "0-0" = some slotW ∧ slotW.item = some coke ∧ 0 < slotW.quantity)
    ∧ ((sell_item mW "0-0" 7).2 = some (coke, min 7 slotW.quantity)
      ∧ min 7 slotW.quantity ≤ slotW.quantity
      ∧ (∃ s', (sell_item mW "0-0" 7).1 "0-0" = some s'
          ∧ s'.quantity = slotW.quantity - min 7 slotW.quantity
          ∧ 0 ≤ s'.quantity
          ∧ (s'.quantity = 0 → s'.item = none)
          ∧ (s'.quantity ≠ 0 → s'.item = some coke))
      ∧ (∀ k, k ≠ "0-0" → (sell_item mW "0-0" 7).1 k = mW k)) :=
  ⟨⟨by decide, by decide, by decide⟩,
    (c7_sell_item_clamps mW "0-0" 7).2 slotW coke (by decide) (by decide) (by decide)⟩

/-! ## Claim C6 -/

theorem processPending_remaining (t : ℕ) (ds : List Delivery) (m : Items) :
    ∀ d ∈ (processPending t m ds).remaining, ¬ d.arrivalTime ≤ t := by
  induction ds generalizing m with
  | nil =>
    intro d hd
    simp [processPending] at hd
  | cons d0 rest ih =>
    intro d hd
    by_cases h0 : d0.arrivalTime ≤ t
    · simp only [processPending] at hd
      rw [if_pos h0] at hd
      exact ih (processDeliveryItems m d0.items).items d hd
    · simp only [processPending] at hd
      rw [if_neg h0] at hd
      replace hd : d ∈ d0 :: (processPending t m rest).remaining := hd
      rcases List.mem_cons.mp hd with rfl | hd'
      · exact h0
      · exact ih m d hd'

theorem processPending_none (t : ℕ) (ds : List Delivery) (m : Items)
    (h : ∀ d ∈ ds, ¬ d.arrivalTime ≤ t) :
    processPending t m ds = { items := m, totalCost := 0, remaining := ds, notices := [] } := by
  induction ds generalizing m with
  | nil => rfl
  | cons d0 rest ih =>
    have h0 := h d0 (List.mem_cons_self _ _)
    simp only [processPending]
    rw [if_neg h0]
    rw [ih m (fun d hd => h d (List.mem_cons_of_mem _ hd))]

/-- C6, confirmed. `process_arrivals` on an empty pending list returns cost 0,
mutates nothing and emits no delivery notice; and immediately re-running it at
the same current time on the state it produced returns cost 0, the identical
storage state, and no notice. -/
theorem c6_process_arrivals_idempotent (st : Storage) (t : ℕ) :
    process_arrivals { items := st.items, pendingDeliveries := [] } t
        = ({ items := st.items, pendingDeliveries := [] }, 0, [])
    ∧ process_arrivals (process_arrivals st t).1 t = ((process_arrivals st t).1, 0, []) := by
  constructor
  · rfl
  · rcases hp : st.pendingDeliveries with _ | ⟨d0, rest⟩
    · have h1 : process_arrivals st t = (st, 0, []) := by
        simp [process_arrivals, hp]
      rw [h1]
      exact h1
    · have hne : st.pendingDeliveries.isEmpty = false := by
        rw [hp]
        rfl
      have h1 : process_arrivals st t
          = ({ items := (processPending t st.items st.pendingDeliveries).items
               pendingDeliveries := (processPending t st.items st.pendingDeliveries).remaining },
             (processPending t st.items st.pendingDeliveries).totalCost,
             (processPending t st.items st.pendingDeliveries).notices) := by
        simp only [process_arrivals]
        rw [if_neg (by simp [hne])]
      rw [h1]
      have hall := processPending_remaining t st.pendingDeliveries st.items
      rcases hrem : (processPending t st.items st.pendingDeliveries).remaining
        with _ | ⟨d', rest'⟩
      · simp [process_arrivals, hrem]
      · have hemp : (processPending t st.items st.pendingDeliveries).remaining.isEmpty = false := by
          rw [hrem]
          rfl
        have h2 := processPending_none t
          (processPending t st.items st.pendingDeliveries).remaining
          (processPending t st.items st.pendingDeliveries).items
          (fun d hd => hall d hd)
        rw [hrem] at h2
        simp only [process_arrivals]
        rw [if_neg (by simp [hemp])]
        rw [h2]

/-! ## Lemmas on the choice multiplier (C8, C10) -/

theorem exp_neg_lt_of (x c : ℝ) (h : 1 < c * Real.exp x) : Real.exp (-x) < c := by
  rw [Real.exp_neg, inv_eq_one_div, div_lt_iff (Real.exp_pos x)]
  exact h

theorem exp_neg_le_of (x c : ℝ) (h : 1 ≤ c * Real.exp x) : Real.exp (-x) ≤ c := by
  rw [Real.exp_neg, inv_eq_one_div, div_le_iff (Real.exp_pos x)]
  exact h

theorem lt_exp_neg_of (x c : ℝ) (h : c * Real.exp x < 1) : c < Real.exp (-x) := by
  rw [Real.exp_neg, inv_eq_one_div, lt_div_iff (Real.exp_pos x)]
  exact h

theorem exp_half_lt_fiveThirds : Real.exp (1/2 : ℝ) < 5/3 := by
  have h1 : Real.exp (1/2 : ℝ) * Real.exp (1/2 : ℝ) = Real.exp 1 := by
    rw [← Real.exp_add]
    norm_num
  have h2 := Real.exp_one_lt_d9
  nlinarith [Real.exp_pos (1/2 : ℝ)]

theorem exp_one_lt_three : Real.exp 1 < 3 :=
  lt_trans Real.exp_one_lt_d9 (by norm_num)

theorem exp_threeHalves_lt_five : Real.exp (3/2 : ℝ) < 5 := by
  have h1 : Real.exp (3/2 : ℝ) * Real.exp (3/2 : ℝ) = Real.exp 1 * Real.exp 1 * Real.exp 1 := by
    rw [← Real.exp_add, ← Real.exp_add, ← Real.exp_add]
    norm_num
  have h2 := Real.exp_one_lt_d9
  nlinarith [Real.exp_pos (3/2 : ℝ), Real.exp_pos 1]

theorem choiceSigmoid_pos (n : ℕ) : 0 < choiceSigmoid n := by
  unfold choiceSigmoid
  positivity

theorem choiceSigmoid_le_half (n : ℕ) (h : n ≤ 10) : choiceSigmoid n ≤ 1/2 := by
  unfold choiceSigmoid
  have hn : (n : ℝ) ≤ 10 := by exact_mod_cast h
  have hx : (0 : ℝ) ≤ -(0.5 : ℝ) * ((n : ℝ) - 10) := by nlinarith
  have he : (1 : ℝ) ≤ Real.exp (-(0.5 : ℝ) * ((n : ℝ) - 10)) := by
    rw [show (1 : ℝ) = Real.exp 0 by simp]
    exact Real.exp_le_exp.mpr hx
  rw [div_le_div_iff (by positivity) (by norm_num)]
  linarith

theorem choiceSigmoid_lt_half (n : ℕ) (h : n < 10) : choiceSigmoid n < 1/2 := by
  unfold choiceSigmoid
  have hn : (n : ℝ) < 10 := by exact_mod_cast h
  have hx : (0 : ℝ) < -(0.5 : ℝ) * ((n : ℝ) - 10) := by nlinarith
  have he : (1 : ℝ) < Real.exp (-(0.5 : ℝ) * ((n : ℝ) - 10)) := by
    rw [show (1 : ℝ) = Real.exp 0 by simp]
    exact Real.exp_lt_exp.mpr hx
  rw [div_lt_div_iff (by positivity) (by norm_num)]
  linarith

theorem choiceSigmoid_ten : choiceSigmoid 10 = 1/2 := by
  unfold choiceSigmoid
  norm_num

theorem bound_case11 :
    Real.exp (-(0.1 : ℝ) * ((11 : ℝ) - 10))
      < 3/4 * (1 + Real.exp (-(0.5 : ℝ) * ((11 : ℝ) - 10))) := by
  rw [show -(0.1 : ℝ) * ((11 : ℝ) - 10) = -(1/10 : ℝ) by norm_num,
    show -(0.5 : ℝ) * ((11 : ℝ) - 10) = -(1/2 : ℝ) by norm_num]
  have h1 : Real.exp (-(1/10 : ℝ)) < 1 := by
    have := Real.exp_lt_exp.mpr (show -(1/10 : ℝ) < 0 by norm_num)
    simpa using this
  have h2 : (3/5 : ℝ) < Real.exp (-(1/2 : ℝ)) := by
    apply lt_exp_neg_of
    have := exp_half_lt_fiveThirds
    linarith
  linarith

theorem bound_case12 :
    Real.exp (-(0.1 : ℝ) * ((12 : ℝ) - 10))
      < 3/4 * (1 + Real.exp (-(0.5 : ℝ) * ((12 : ℝ) - 10))) := by
  rw [show -(0.1 : ℝ) * ((12 : ℝ) - 10) = -(1/5 : ℝ) by norm_num,
    show -(0.5 : ℝ) * ((12 : ℝ) - 10) = -(1 : ℝ) by norm_num]
  have h1 : Real.exp (-(1/5 : ℝ)) < 1 := by
    have := Real.exp_lt_exp.mpr (show -(1/5 : ℝ) < 0 by norm_num)
    simpa using this
  have h2 : (1/3 : ℝ) < Real.exp (-(1 : ℝ)) := by
    apply lt_exp_neg_of
    have := exp_one_lt_three
    linarith
  linarith

theorem bound_case13 :
    Real.exp (-(0.1 : ℝ) * ((13 : ℝ) - 10))
      < 3/4 * (1 + Real.exp (-(0.5 : ℝ) * ((13 : ℝ) - 10))) := by
  rw [show -(0.1 : ℝ) * ((13 : ℝ) - 10) = -(3/10 : ℝ) by norm_num,
    show -(0.5 : ℝ) * ((13 : ℝ) - 10) = -(3/2 : ℝ) by norm_num]
  have h1 : Real.exp (-(3/10 : ℝ)) ≤ 10/13 := by
    apply exp_neg_le_of
    have := Real.add_one_le_exp (3/10 : ℝ)
    nlinarith
  have h2 : (1/5 : ℝ) < Real.exp (-(3/2 : ℝ)) := by
    apply lt_exp_neg_of
    have := exp_threeHalves_lt_five
    linarith
  linarith

theorem choiceProduct_lt_threeQuarters (n : ℕ) (hn : 10 < n) :
    choiceSigmoid n * Real.exp (-(0.1 : ℝ) * ((n : ℝ) - 10)) < 3/4 := by
  have hx1 : (1 : ℝ) ≤ (n : ℝ) - 10 := by
    have h11 : (11 : ℝ) ≤ (n : ℝ) := by exact_mod_cast hn
    linarith
  unfold choiceSigmoid
  rw [div_mul_eq_mul_div, one_mul, div_lt_iff (by positivity)]
  by_cases h4 : (4 : ℝ) ≤ (n : ℝ) - 10
  · have hb : Real.exp (-(0.1 : ℝ) * ((n : ℝ) - 10)) ≤ Real.exp (-(2/5 : ℝ)) := by
      apply Real.exp_le_exp.mpr
      nlinarith
    have hc : Real.exp (-(2/5 : ℝ)) < 3/4 := by
      apply exp_neg_lt_of
      have h75 : (7/5 : ℝ) < Real.exp (2/5 : ℝ) := by
        have := Real.add_one_lt_exp (show (2/5 : ℝ) ≠ 0 by norm_num)
        linarith
      linarith
    have ha := Real.exp_pos (-(0.5 : ℝ) * ((n : ℝ) - 10))
    linarith
  · have hn14 : n < 14 := by
      by_contra hcon
      push_neg at hcon
      have h14 : (14 : ℝ) ≤ (n : ℝ) := by exact_mod_cast hcon
      exact h4 (by linarith)
    interval_cases n
    · exact_mod_cast bound_case11
    · exact_mod_cast bound_case12
    · exact_mod_cast bound_case13

theorem choiceMult_ge_half (n : ℕ) : 1/2 ≤ calculate_choice_multiplier n := by
  unfold calculate_choice_multiplier
  split
  · norm_num
  · exact le_trans (by norm_num) (le_max_left _ _)

theorem choiceMult_ten : calculate_choice_multiplier 10 = 3/4 := by
  unfold calculate_choice_multiplier
  rw [if_neg (by norm_num), if_pos (le_refl 10), choiceSigmoid_ten,
    show (0.5 : ℝ) + 0.5 * (1/2) = 3/4 by norm_num]
  exact max_eq_right (by norm_num)

theorem choiceMult_lt_of_ne_ten (n : ℕ) (hne : n ≠ 10) :
    calculate_choice_multiplier n < 3/4 := by
  unfold calculate_choice_multiplier
  split
  · norm_num
  · split
    · rename_i h0 hle
      have hlt : n < 10 := lt_of_le_of_ne hle hne
      have hs := choiceSigmoid_lt_half n hlt
      apply max_lt (by norm_num)
      linarith
    · rename_i h0 hgt
      push_neg at hgt
      exact max_lt (by norm_num) (choiceProduct_lt_threeQuarters n hgt)

theorem choiceMult_le (n : ℕ) : calculate_choice_multiplier n ≤ 3/4 := by
  by_cases h : n = 10
  · rw [h, choiceMult_ten]
  · exact le_of_lt (choiceMult_lt_of_ne_ten n h)

/-! ## Claim C8 -/

/-- C8, corrected. For every product count n ≥ 1 the choice multiplier equals
the spec's floored piecewise form (`0.5 + 0.5·σ(n)` for n ≤ 10,
`σ(n)·exp(−0.1·(n−10))` for n > 10, floored at 0.5); at n = 0 the code hard
returns the floor value 0.5 instead of the formula (which would give
0.5 + 0.5·σ(0) > 0.5); the multiplier is bounded below by 0.5 everywhere and
attains its maximum at n = 10. -/
theorem c8_choice_multiplier_amended :
    (∀ n : ℕ, calculate_choice_multiplier (n + 1) = choiceMultiplierSpecForm (n + 1))
    ∧ calculate_choice_multiplier 0 = 0.5
    ∧ (∀ n : ℕ, 1/2 ≤ calculate_choice_multiplier n)
    ∧ (∀ n : ℕ, calculate_choice_multiplier n ≤ calculate_choice_multiplier 10) := by
  refine ⟨?_, ?_, choiceMult_ge_half, ?_⟩
  · intro n
    unfold calculate_choice_multiplier choiceMultiplierSpecForm
    rw [if_neg (Nat.succ_ne_zero n)]
  · unfold calculate_choice_multiplier
    rw [if_pos rfl]
  · intro n
    rw [choiceMult_ten]
    exact choiceMult_le n

/-- C8 counterexample: at a count of zero products the code returns exactly
0.5 while the spec's exact form evaluates to 0.5 + 0.5·σ(0) > 0.5. -/
theorem c8_choice_multiplier_at_zero_counterexample :
    calculate_choice_multiplier 0 ≠ choiceMultiplierSpecForm 0 := by
  have h0 : calculate_choice_multiplier 0 = 0.5 := by
    unfold calculate_choice_multiplier
    rw [if_pos rfl]
  have hs := choiceSigmoid_pos 0
  have h1 : choiceMultiplierSpecForm 0 = max 0.5 (0.5 + 0.5 * choiceSigmoid 0) := by
    unfold choiceMultiplierSpecForm
    rw [if_pos (by norm_num)]
  rw [h0, h1]
  intro h
  have h2 : (0.5 : ℝ) + 0.5 * choiceSigmoid 0 ≤ 0.5 := max_eq_left_iff.mp h.symm
  linarith

/-! ## Claim C10 -/

/-- C10, confirmed. For every product count n, the choice multiplier lies in
the closed interval [0.5, 0.75] and attains 0.75 exactly at n = 10; being at
most 0.75 < 1 it can only scale expected sales down, never boost them above
the price-elasticity base. -/
theorem c10_choice_multiplier_bounds (n : ℕ) :
    1/2 ≤ calculate_choice_multiplier n
    ∧ calculate_choice_multiplier n ≤ 3/4
    ∧ (calculate_choice_multiplier n = 3/4 ↔ n = 10) := by
  refine ⟨choiceMult_ge_half n, choiceMult_le n, ?_, ?_⟩
  · intro h
    by_contra hne
    exact absurd h (ne_of_lt (choiceMult_lt_of_ne_ten n hne))
  · intro h
    rw [h]
    exact choiceMult_ten

/-! ## Lemmas for supplier-response synthesis (C9) -/

theorem supplierStep_agentEmail (o : Email → Except String String)
    (a : EmailSystem) (s : Email) : (supplierStep o a s).agentEmail = a.agentEmail := by
  unfold supplierStep receive_email
  split <;> rfl

theorem supplierStep_outbox (o : Email → Except String String)
    (a : EmailSystem) (s : Email) : (supplierStep o a s).outbox = a.outbox := by
  unfold supplierStep receive_email
  split <;> rfl

theorem supplierStep_inbox_extends (o : Email → Except String String)
    (a : EmailSystem) (s : Email) : a.inbox <+: (supplierStep o a s).inbox := by
  unfold supplierStep receive_email
  split
  · exact List.prefix_refl _
  · exact List.prefix_append _ _

theorem supplierFold_agentEmail (o : Email → Except String String)
    (l : List Email) (a : EmailSystem) :
    (l.foldl (supplierStep o) a).agentEmail = a.agentEmail := by
  induction l generalizing a with
  | nil => rfl
  | cons s0 t ih =>
    rw [List.foldl_cons, ih (supplierStep o a s0), supplierStep_agentEmail]

theorem supplierFold_outbox (o : Email → Except String String)
    (l : List Email) (a : EmailSystem) :
    (l.foldl (supplierStep o) a).outbox = a.outbox := by
  induction l generalizing a with
  | nil => rfl
  | cons s0 t ih =>
    rw [List.foldl_cons, ih (supplierStep o a s0), supplierStep_outbox]

theorem supplierFold_inbox_extends (o : Email → Except String String)
    (l : List Email) (a : EmailSystem) :
    a.inbox <+: (l.foldl (supplierStep o) a).inbox := by
  induction l generalizing a with
  | nil => exact List.prefix_refl _
  | cons s0 t ih =>
    rw [List.foldl_cons]
    exact (supplierStep_inbox_extends o a s0).trans (ih (supplierStep o a s0))

theorem replyMatches_self (s0 : Email) :
    replyMatches s0
      { id := 0, sender := s0.recipient, recipient := "", subject := "Re: " ++ s0.subject,
        body := "", emailType := "response", read := false } := by
  constructor
  · show "Re:".data <+: ("Re: " ++ s0.subject).data
    rw [String.data_append "Re: " s0.subject]
    refine ⟨' ' :: s0.subject.data, ?_⟩
    have h : "Re:".data ++ [' '] = "Re: ".data := by decide
    rw [← h]
    simp
  · show pyIn s0.subject ("Re: " ++ s0.subject)
    unfold pyIn
    rw [String.data_append "Re: " s0.subject]
    exact ⟨"Re: ".data, [], by simp⟩

theorem replyMatches_subject (s0 e : Email) (h : e.subject = "Re: " ++ s0.subject) :
    replyMatches s0 e := by
  have h0 := replyMatches_self s0
  unfold replyMatches pyIn at h0 ⊢
  rw [h]
  exact h0

theorem supplierFold_covers (o : Email → Except String String)
    (l : List Email) (a : EmailSystem) :
    ∀ s ∈ l, ∃ e ∈ (l.foldl (supplierStep o) a).inbox, replyMatches s e := by
  induction l generalizing a with
  | nil =>
    intro s hs
    simp at hs
  | cons s0 t ih =>
    intro s hs
    rw [List.foldl_cons]
    rcases List.mem_cons.mp hs with rfl | hs'
    · have hpre : (supplierStep o a s).inbox <+: (t.foldl (supplierStep o) (supplierStep o a s)).inbox :=
        supplierFold_inbox_extends o t (supplierStep o a s)
      by_cases hm : matchedInInbox a.inbox s = true
      · obtain ⟨e, he, hd⟩ := List.any_eq_true.mp hm
        refine ⟨e, ?_, of_decide_eq_true hd⟩
        exact hpre.subset ((supplierStep_inbox_extends o a s).subset he)
      · have hstep : (supplierStep o a s).inbox
            = a.inbox ++
              [{ id := a.emailCounter + 1, sender := s.recipient, recipient := a.agentEmail,
                 subject := "Re: " ++ s.subject, body := supplierReplyBody o s,
                 emailType := "response", read := false }] := by
          unfold supplierStep
          rw [if_neg hm]
          rfl
        refine ⟨{ id := a.emailCounter + 1, sender := s.recipient, recipient := a.agentEmail,
                  subject := "Re: " ++ s.subject, body := supplierReplyBody o s,
                  emailType := "response", read := false },
          hpre.subset ?_, replyMatches_subject s _ rfl⟩
        rw [hstep]
        exact List.mem_append_right _ (List.mem_singleton.mpr rfl)
    · exact ih (supplierStep o a s0) s hs'

theorem supplierFold_provenance (o : Email → Except String String)
    (l : List Email) (a : EmailSystem) :
    ∀ e ∈ (l.foldl (supplierStep o) a).inbox,
      e ∈ a.inbox ∨ ∃ s', s' ∈ l ∧ isSynthReply a.agentEmail o s' e := by
  induction l generalizing a with
  | nil =>
    intro e he
    exact Or.inl he
  | cons s0 t ih =>
    intro e he
    rw [List.foldl_cons] at he
    rcases ih (supplierStep o a s0) e he with hin | ⟨s', hs', hrep⟩
    · by_cases hm : matchedInInbox a.inbox s0 = true
      · left
        unfold supplierStep at hin
        rw [if_pos hm] at hin
        exact hin
      · have hstep : (supplierStep o a s0).inbox
            = a.inbox ++
              [{ id := a.emailCounter + 1, sender := s0.recipient, recipient := a.agentEmail,
                 subject := "Re: " ++ s0.subject, body := supplierReplyBody o s0,
                 emailType := "response", read := false }] := by
          unfold supplierStep
          rw [if_neg hm]
          rfl
        rw [hstep] at hin
        rcases List.mem_append.mp hin with h1 | h2
        · exact Or.inl h1
        · have he2 := List.mem_singleton.mp h2
          subst he2
          exact Or.inr ⟨s0, List.mem_cons_self _ _, rfl, rfl, rfl, rfl, rfl, rfl⟩
    · rw [supplierStep_agentEmail o a s0] at hrep
      exact Or.inr ⟨s', List.mem_cons_of_mem _ hs', hrep⟩

/-! ## Claim C9 -/

/-- C9, corrected. Supplier-response synthesis never raises past its own
boundary: every failure of the oracle (context search + inference + supplier
tool) is replaced by the fixed acknowledgment fallback.  For every sent email
scanned, afterwards the inbox holds a reply matching it in the code's sense
(subject starts with "Re:" and contains the sent subject as a substring); the
outbox is untouched, the inbox only grows, and every new inbox email is the
synthesized reply of some sent email, its body the oracle's content or the
fallback.  However, matching is by substring against the growing inbox, so a
sent email lacking an exact "Re: <subject>" reply can still be skipped; see
the counterexample. -/
theorem c9_supplier_responses_amended (oracle : Email → Except String String)
    (sys : EmailSystem) (s : Email) (hs : s ∈ sys.outbox) :
    (generate_supplier_responses oracle sys).outbox = sys.outbox
    ∧ sys.inbox <+: (generate_supplier_responses oracle sys).inbox
    ∧ (∃ e ∈ (generate_supplier_responses oracle sys).inbox, replyMatches s e)
    ∧ (∀ e ∈ (generate_supplier_responses oracle sys).inbox,
        e ∈ sys.inbox ∨ ∃ s', s' ∈ sys.outbox ∧ isSynthReply sys.agentEmail oracle s' e) :=
  ⟨supplierFold_outbox oracle sys.outbox sys,
    supplierFold_inbox_extends oracle sys.outbox sys,
    supplierFold_covers oracle sys.outbox sys s hs,
    supplierFold_provenance oracle sys.outbox sys⟩

/-- C9 counterexample: with outbox subjects "Order 2" then "Order" and an
empty inbox, only one reply ("Re: Order 2") is generated; the sent email
"Order" has no "Re: Order" reply before or after the call, yet no reply is
appended for it — its subject is a substring of the reply generated for
"Order 2", so it is skipped. -/
theorem c9_missing_reply_counterexample :
    c9demoSys.inbox = []
    ∧ (generate_supplier_responses c9okOracle c9demoSys).inbox.length = 1
    ∧ ∀ e ∈ (generate_supplier_responses c9okOracle c9demoSys).inbox,
        e.subject ≠ "Re: " ++ c9sent2.subject := by
  refine ⟨rfl, by decide, by decide⟩

/-- Witness for C9: a failing oracle on a one-email outbox still yields a
matching fallback reply. -/
theorem c9_supplier_responses_amended_witness :
    c9sent2 ∈ c9wSys.outbox
    ∧ ((generate_supplier_responses c9failOracle c9wSys).outbox = c9wSys.outbox
      ∧ c9wSys.inbox <+: (generate_supplier_responses c9failOracle c9wSys).inbox
      ∧ (∃ e ∈ (generate_supplier_responses c9failOracle c9wSys).inbox,
          replyMatches c9sent2 e)
      ∧ (∀ e ∈ (generate_supplier_responses c9failOracle c9wSys).inbox,
          e ∈ c9wSys.inbox
          ∨ ∃ s', s' ∈ c9wSys.outbox ∧ isSynthReply c9wSys.agentEmail c9failOracle s' e)) :=
  ⟨by decide, c9_supplier_responses_amended c9failOracle c9wSys c9sent2 (by decide)⟩

/-! ## Claim C1 -/

/-- C1: evaluation of the rollover scheduling at its failing input.  From a
fresh simulation, three agent ticks each advancing time by exactly one day
fire the rollover on the first two checks but NOT on the third (day-2 6 AM)
check: after the day-1 fire, `last_6am_time` is set to day-2 6 AM and the
trigger needs `current_time ≥ last + 1 day` = day-3 6 AM, so the day-1 to
day-2 crossing produces zero fee deductions and zero weather transitions —
after three one-day advances only one fee was charged and only two weather
transitions ran.  Repeated ticks without a crossing fire at most once. -/
theorem c1_rollover_skips_second_crossing :
    runSimFires idWeather juneMonth emptyOracle c1acts initSim = [true, true, false]
    ∧ (runSim idWeather juneMonth emptyOracle c1acts initSim).time = 360 + 3 * 1440
    ∧ (runSim idWeather juneMonth emptyOracle c1acts initSim).weatherTransitions = 2
    ∧ (runSim idWeather juneMonth emptyOracle c1acts initSim).balance
        = STARTING_BALANCE - DAILY_FEE
    ∧ runSimFires idWeather juneMonth emptyOracle [.noop, .noop] initSim = [true, false] := by
  refine ⟨by decide, by decide, by decide, by decide, by decide⟩

/-! ## Claim C2 -/

/-- C2, corrected.  `handle_new_day` performs, in this fixed order: (1) the
flat daily fee deduction with the `days_passed` increment, skipped on the
very first tick (`message_count ≤ 1`); (2) the weather transition seeded by
the previous day's weather; (3) supplier-response synthesis; (4) composition
of the report (balance, days in operation, daily fee, weather, season,
message count, unread-email count) from the post-rollover state.  It
processes no deliveries and settles no sales — the simulation state holds
neither a storage system nor a vending machine — and it never changes
simulated time. -/
theorem c2_rollover_order_amended (genWeather : ℕ → String → String)
    (monthOf : ℕ → ℕ) (oracle : Email → Except String String) (st : SimState) :
    (handle_new_day genWeather monthOf oracle st).2.2
      = (if 1 < st.messageCount then [RolloverStep.feeDeduction] else [])
        ++ [RolloverStep.weatherTransition, RolloverStep.supplierResponses,
            RolloverStep.reportComposition]
    ∧ (handle_new_day genWeather monthOf oracle st).1.balance
        = st.balance - (if 1 < st.messageCount then DAILY_FEE else 0)
    ∧ (handle_new_day genWeather monthOf oracle st).1.daysPassed
        = st.daysPassed + (if 1 < st.messageCount then 1 else 0)
    ∧ (handle_new_day genWeather monthOf oracle st).1.weather
        = genWeather (monthOf (st.time / 1440)) st.weather
    ∧ (handle_new_day genWeather monthOf oracle st).1.emails
        = generate_supplier_responses oracle st.emails
    ∧ (handle_new_day genWeather monthOf oracle st).1.time = st.time
    ∧ (handle_new_day genWeather monthOf oracle st).2.1
        = get_day_report monthOf (handle_new_day genWeather monthOf oracle st).1 := by
  by_cases h : 1 < st.messageCount <;>
    simp [handle_new_day, get_day_report, h]

/-- C2 counterexample: on a state past the first tick, the rollover's actual
step trace is fee, weather, supplier-responses, report — not the six-step
sequence (fee, weather, delivery processing, supplier-responses, sales
settlement, report) the claim states. -/
theorem c2_rollover_steps_counterexample :
    (handle_new_day idWeather juneMonth emptyOracle c2demoSim).2.2
        = [RolloverStep.feeDeduction, RolloverStep.weatherTransition,
           RolloverStep.supplierResponses, RolloverStep.reportComposition]
    ∧ (handle_new_day idWeather juneMonth emptyOracle c2demoSim).2.2
        ≠ claimedRolloverSteps := by
  refine ⟨by decide, by decide⟩

/-! ## Claim C3 -/

/-- C3 counterexample: from a fresh simulation (balance 500, daily fee 2,
state logging on), one agent action at start and one after each of three
one-day advances — no sales, no deliveries — ends with balance 496 and 5 log
rows, so the claimed balance 494 and 3 log entries both fail. -/
theorem c3_three_day_scenario_counterexample :
    (runSim idWeather juneMonth emptyOracle c3acts initSim).daysPassed = 2
    ∧ ¬((runSim idWeather juneMonth emptyOracle c3acts initSim).balance = 494
        ∧ (runSim idWeather juneMonth emptyOracle c3acts initSim).logs.length = 3) := by
  refine ⟨by decide, by decide⟩

/-- C3, corrected.  In that scenario the rollover fires on ticks 1, 2 and 4
(the day-2 crossing is skipped by the scheduling bug) and the fee is skipped
on the first tick, so after three elapsed days the balance is
500 − 2·2 = 496; the log holds one row from initialization plus one per
agent action: 5 rows. -/
theorem c3_three_day_scenario_amended :
    runSimFires idWeather juneMonth emptyOracle c3acts initSim = [true, true, false, true]
    ∧ (runSim idWeather juneMonth emptyOracle c3acts initSim).balance = 496
    ∧ (runSim idWeather juneMonth emptyOracle c3acts initSim).logs.length = 5
    ∧ (runSim idWeather juneMonth emptyOracle c3acts initSim).messageCount = 4
    ∧ (runSim idWeather juneMonth emptyOracle c3acts initSim).daysPassed = 2 := by
  refine ⟨by decide, by decide, by decide, by decide, by decide⟩

end VendingBench
